import Mathlib

/-!
Verification of the echosounder processing core (`echopype/process/process_base.py`)
against its natural-language specification.

Shallow embedding conventions:
* floating-point numpy arithmetic is modelled over `ℝ` (`Real.logb`, `Real.pi`,
  real powers) and, where the code only compares and selects rational table
  entries, over `ℚ` so that the definitions are executable;
* a labelled 3-D array indexed by (frequency/channel, ping_time, range_bin) is a
  function `Idx → ℝ` with `Idx := ℕ × ℕ × ℕ`; per-channel parameters are
  functions `ℕ → ℝ` of the channel index;
* Python methods that either `raise` or return are embedded as values of an
  explicit outcome type (`Except String` or a dedicated inductive whose
  constructors distinguish the deliberate raises, the accidental untyped
  crashes, and the returned value); a `ValueError(...)` expression that is
  constructed but *not* raised (a slip present in the source) is embedded as
  the fall-through return value `none`, exactly as Python would behave.
-/

/-! ## Sonar-equation calibration engine (`ProcessEK._cal_narrowband`) -/

/-- Sample index: (frequency/channel, ping_time, range_bin). -/
abbrev Idx : Type := ℕ × ℕ × ℕ

/-- From the source, line 211:
`spreading_loss = 20 * np.log10(ed.range.where(ed.range >= 1, other=1))`.
`DataArray.where(cond, other=1)` keeps the value where the condition holds and
substitutes `1` elsewhere. -/
noncomputable def spreading_loss (r : ℝ) : ℝ :=
  20 * Real.logb 10 (if 1 ≤ r then r else 1)

/-- From the source, line 212:
`absorption_loss = 2 * env_params['seawater_absorption'] * ed.range`. -/
noncomputable def absorption_loss (alpha r : ℝ) : ℝ := 2 * alpha * r

/-- From the source, line 205:
`wavelength = env_params['speed_of_sound_in_water'] / ed.raw.frequency`. -/
noncomputable def wavelength (c f : ℝ) : ℝ := c / f

/-- From the source, lines 217-223: the Sv gain term
`CSv = 10*log10(transmit_power) + 2*gain_correction + equivalent_beam_angle
      + 10*log10(wavelength**2 * transmit_duration_nominal * speed_of_sound / (32*pi**2))`. -/
noncomputable def CSv (P G psi tau c f : ℝ) : ℝ :=
  10 * Real.logb 10 P + 2 * G + psi
    + 10 * Real.logb 10 (wavelength c f ^ 2 * tau * c / (32 * Real.pi ^ 2))

/-- From the source, lines 247-249: the Sp gain term
`CSp = 10*log10(transmit_power) + 2*gain_correction + 10*log10(wavelength**2 / (16*pi**2))`. -/
noncomputable def CSp (P G c f : ℝ) : ℝ :=
  10 * Real.logb 10 P + 2 * G + 10 * Real.logb 10 (wavelength c f ^ 2 / (16 * Real.pi ^ 2))

/-- From the source, line 226 (per sample, channel-indexed parameters broadcast):
`Sv = ed.raw.backscatter_r + spreading_loss + absorption_loss - CSv - 2 * cal_params['sa_correction']`. -/
noncomputable def Sv_da (backscatter rng : Idx → ℝ) (c alpha : ℝ)
    (P G psi tau sa f : ℕ → ℝ) : Idx → ℝ :=
  fun i => backscatter i + spreading_loss (rng i) + absorption_loss alpha (rng i)
    - CSv (P i.1) (G i.1) (psi i.1) (tau i.1) c (f i.1) - 2 * sa i.1

/-- From the source, line 252 (per sample):
`Sp = ed.raw.backscatter_r + spreading_loss * 2 + absorption_loss - CSp`. -/
noncomputable def Sp_da (backscatter rng : Idx → ℝ) (c alpha : ℝ)
    (P G f : ℕ → ℝ) : Idx → ℝ :=
  fun i => backscatter i + spreading_loss (rng i) * 2 + absorption_loss alpha (rng i)
    - CSp (P i.1) (G i.1) c (f i.1)

/-! Definitions written from the specification's own words (section 4.3), to be
compared with the source-derived definitions above. -/

/-- Spec section 4.3, Sv gain term, written from the spec text. -/
noncomputable def spec_gain_Sv (P G psi tau c f : ℝ) : ℝ :=
  10 * Real.logb 10 P + 2 * G + psi
    + 10 * Real.logb 10 ((c / f) ^ 2 * tau * c / (32 * Real.pi ^ 2))

/-- Spec section 4.3: `Sv = raw_power + spreading_loss + absorption_loss - gain_term
- 2*sa_correction`, with `spreading_loss = 20*log10(max(range,1))` and
`absorption_loss = 2*seawater_absorption*range`. -/
noncomputable def spec_Sv (p P G psi tau sa c f alpha r : ℝ) : ℝ :=
  p + 20 * Real.logb 10 (max r 1) + 2 * alpha * r - spec_gain_Sv P G psi tau c f - 2 * sa

/-- Spec section 4.3, Sp gain term, written from the spec text. -/
noncomputable def spec_gain_Sp (P G c f : ℝ) : ℝ :=
  10 * Real.logb 10 P + 2 * G + 10 * Real.logb 10 ((c / f) ^ 2 / (16 * Real.pi ^ 2))

/-- Spec section 4.3: `Sp = raw_power + 2*spreading_loss + absorption_loss - gain_term`
(no sa_correction, spreading loss doubled). -/
noncomputable def spec_Sp (p P G c f alpha r : ℝ) : ℝ :=
  p + 2 * (20 * Real.logb 10 (max r 1)) + 2 * alpha * r - spec_gain_Sp P G c f

lemma clamp_eq_max (r : ℝ) : (if 1 ≤ r then r else 1) = max r 1 := by
  rcases le_total r 1 with h | h
  · rcases eq_or_lt_of_le h with h1 | h1
    · simp [h1]
    · rw [if_neg (not_le.mpr h1), max_eq_right h]
  · rw [if_pos h, max_eq_left h]

/-- C1: for every sample of every Sv calibration call, the computed Sv equals
the spec formula `raw_power + spreading_loss + absorption_loss - gain_term -
2*sa_correction` with the spec's gain term, wavelength `c/f` per channel, and
`absorption_loss = 2*seawater_absorption*range`. -/
theorem Sv_calibration_matches_spec (backscatter rng : Idx → ℝ) (c alpha : ℝ)
    (P G psi tau sa f : ℕ → ℝ) (i : Idx) :
    Sv_da backscatter rng c alpha P G psi tau sa f i
      = spec_Sv (backscatter i) (P i.1) (G i.1) (psi i.1) (tau i.1) (sa i.1)
          c (f i.1) alpha (rng i) := by
  unfold Sv_da spec_Sv spec_gain_Sv CSv spreading_loss absorption_loss wavelength
  rw [clamp_eq_max]

/-- C2: for every sample of every Sp calibration call, the computed Sp equals
the spec formula `raw_power + 2*spreading_loss + absorption_loss - gain_term`
with the Sp gain term `10*log10(P) + 2*G + 10*log10(wavelength^2/(16*pi^2))`:
spreading loss is doubled relative to Sv and no sa_correction is subtracted. -/
theorem Sp_calibration_matches_spec (backscatter rng : Idx → ℝ) (c alpha : ℝ)
    (P G f : ℕ → ℝ) (i : Idx) :
    Sp_da backscatter rng c alpha P G f i
      = spec_Sp (backscatter i) (P i.1) (G i.1) c (f i.1) alpha (rng i) := by
  unfold Sp_da spec_Sp spec_gain_Sp CSp spreading_loss absorption_loss wavelength
  rw [clamp_eq_max]
  ring

/-- C4: the spreading loss is `20*log10(max(range,1))`: every range below one
distance unit (zero included) is clamped to 1 before the logarithm, so the
spreading-loss term is non-negative (in particular finite in this real-valued
model) and a range of zero yields `20*log10(1) = 0`, never negative infinity. -/
theorem spreading_loss_clamped :
    (∀ r : ℝ, spreading_loss r = 20 * Real.logb 10 (max r 1))
    ∧ (∀ r : ℝ, 0 ≤ spreading_loss r)
    ∧ spreading_loss 0 = 0 := by
  refine ⟨fun r => by rw [spreading_loss, clamp_eq_max], fun r => ?_, ?_⟩
  · rw [spreading_loss, clamp_eq_max]
    have h1 : (0:ℝ) ≤ Real.logb 10 (max r 1) :=
      Real.logb_nonneg (by norm_num) (le_max_right r 1)
    linarith
  · rw [spreading_loss, if_neg (by norm_num), Real.logb_one, mul_zero]

/-! ## Tiled aggregation engine (`ProcessBase.get_MVBS`, `_get_tile_params`) -/

/-- From the source, line 124: `Sv_linear = 10 ** (Sv / 10)` (real power). -/
noncomputable def Sv_linear (SvdB : ℕ → ℕ → ℝ) : ℕ → ℕ → ℝ :=
  fun p b => (10 : ℝ) ^ (SvdB p b / 10)

/-- From the source, lines 132-135: the binned MVBS value of tile `(ti, tj)` for
tile sizes `pt` (pings) and `rt` (range bins),
`MVBS = 10 * np.log10(Sv_linear.coarsen(ping_time=pt, range_bin=rt, boundary='pad').mean())`;
on a tile wholly inside the data (no padding) `coarsen(..).mean()` is the
arithmetic mean of the `pt * rt` linear samples of the tile. -/
noncomputable def get_MVBS_val (SvdB : ℕ → ℕ → ℝ) (pt rt ti tj : ℕ) : ℝ :=
  10 * Real.logb 10
    ((∑ i ∈ Finset.range pt, ∑ j ∈ Finset.range rt,
        Sv_linear SvdB (pt * ti + i) (rt * tj + j)) / ((pt : ℝ) * (rt : ℝ)))

/-- A concrete 4-ping by 4-range-bin dB grid used to separate linear-domain
averaging from naive dB averaging: 20 dB at the top-left sample, 0 dB elsewhere. -/
noncomputable def dbGrid : ℕ → ℕ → ℝ := fun p b => if p = 0 ∧ b = 0 then 20 else 0

/-- C3: binned MVBS converts each dB sample to linear power `10^(dB/10)`, takes
the arithmetic mean over each tile and converts back with `10*log10`; with
`pings_per_tile = range_bins_per_tile = 2` every output tile value is
`10*log10` of the mean of the four linear samples of its 2 by 2 block, and on a
concrete block the result differs from the arithmetic mean of the dB values. -/
theorem MVBS_linear_mean_tiling :
    (∀ (S : ℕ → ℕ → ℝ) (ti tj : ℕ),
      get_MVBS_val S 2 2 ti tj
        = 10 * Real.logb 10
            (((10:ℝ) ^ (S (2*ti) (2*tj) / 10) + (10:ℝ) ^ (S (2*ti) (2*tj+1) / 10)
              + (10:ℝ) ^ (S (2*ti+1) (2*tj) / 10) + (10:ℝ) ^ (S (2*ti+1) (2*tj+1) / 10)) / 4))
    ∧ get_MVBS_val dbGrid 2 2 0 0
        ≠ (dbGrid 0 0 + dbGrid 0 1 + dbGrid 1 0 + dbGrid 1 1) / 4 := by
  constructor
  · intro S ti tj
    unfold get_MVBS_val Sv_linear
    norm_num [Finset.sum_range_succ]
    ring_nf
  · have h100 : (10:ℝ) ^ ((20:ℝ)/10) = 100 := by
      rw [show (20:ℝ)/10 = ((2:ℕ):ℝ) by norm_num, Real.rpow_natCast]
      norm_num
    have h1 : (10:ℝ) ^ ((0:ℝ)/10) = 1 := by
      rw [show (0:ℝ)/10 = (0:ℝ) by norm_num, Real.rpow_zero]
    have hval : get_MVBS_val dbGrid 2 2 0 0 = 10 * Real.logb 10 ((103:ℝ)/4) := by
      unfold get_MVBS_val Sv_linear dbGrid
      norm_num [Finset.sum_range_succ, h100, h1]
    have hmean : (dbGrid 0 0 + dbGrid 0 1 + dbGrid 1 0 + dbGrid 1 1) / 4 = 5 := by
      unfold dbGrid; norm_num
    rw [hval, hmean]
    intro h
    have hl : Real.logb 10 ((103:ℝ)/4) = 1/2 := by linarith
    have hpow := Real.rpow_logb (by norm_num : (0:ℝ) < 10) (by norm_num : (10:ℝ) ≠ 1)
      (by norm_num : (0:ℝ) < 103/4)
    rw [hl, ← Real.sqrt_eq_rpow] at hpow
    have hsq : Real.sqrt 10 ^ 2 = 10 := Real.sq_sqrt (by norm_num)
    rw [hpow] at hsq
    norm_num at hsq

/-- Processing parameters recognized by `_get_tile_params` / `get_MVBS`
(source lines 71-95, 123-140). -/
structure ProcParams where
  MVBS_source : String
  MVBS_type : String
  MVBS_time_interval : Option ℚ
  MVBS_distance_interval : Option ℚ
  MVBS_range_interval : Option ℚ
  MVBS_ping_num : Option ℕ
  MVBS_range_bin_num : Option ℕ

/-- Outcome of `_get_tile_params` (source lines 71-95): `diag msg` is the branch
that prints `msg` and then falls off the function (`return`, returning `None`);
`raised msg` is `raise ValueError(msg)`; `ok` carries
`(pings_per_tile, range_bins_per_tile)`. -/
inductive TileParamsResult where
  | diag : String → TileParamsResult
  | raised : String → TileParamsResult
  | ok : ℕ → ℕ → TileParamsResult
deriving DecidableEq

/-- From the source, lines 71-95 (`ProcessBase._get_tile_params`), branch for
branch. -/
def get_tile_params (p : ProcParams) : TileParamsResult :=
  if p.MVBS_time_interval.isSome then
    .diag "Averaging by time interval is not yet implemented"
  else
    match p.MVBS_ping_num with
    | none => .raised "No ping tile size provided"
    | some pn =>
      if p.MVBS_distance_interval.isSome then
        .diag "Averaging by distance interval is not yet implemented"
      else if p.MVBS_range_interval.isSome then
        .diag "Averaging by range inteval is not yet implemented"
      else
        match p.MVBS_range_bin_num with
        | none => .raised "No range_bin tile size provided"
        | some rn => .ok pn rn

/-- Control-flow outcome of `get_MVBS` (source lines 123-140):
`diagThenTypeError` records that a diagnostic was printed inside
`_get_tile_params`, `None` was returned, and the tuple unpacking
`pings_per_tile, range_bins_per_tile = ...` then raised an untyped `TypeError`;
`unboundLocalError` records the `MVBS_type == 'rolling'` branch, which executes
`pass` and then hits `return MVBS` with `MVBS` never assigned. -/
inductive MVBSOutcome where
  | raisedValueError : String → MVBSOutcome
  | diagThenTypeError : String → MVBSOutcome
  | unboundLocalError : MVBSOutcome
  | computed : MVBSOutcome
deriving DecidableEq

/-- From the source, lines 123-140 (`ProcessBase.get_MVBS`), control flow only.
The guard `len(np.unique(range_bins_per_tile)) == 1` on line 131 is always true
because `range_bins_per_tile` is the scalar `proc_params['MVBS_range_bin_num']`. -/
def get_MVBS_outcome (p : ProcParams) : MVBSOutcome :=
  if p.MVBS_source = "Sv" ∨ p.MVBS_source = "Sv_clean" then
    match get_tile_params p with
    | .diag m => .diagThenTypeError m
    | .raised m => .raisedValueError m
    | .ok _ _ =>
      if p.MVBS_type = "binned" then .computed
      else if p.MVBS_type = "rolling" then .unboundLocalError
      else .raisedValueError "MVBS_type must be either binned or rolling"
  else .raisedValueError "MVBS_source must be either Sv or Sv_clean"

/-- Time-interval configuration exercising the unimplemented branch. -/
def pc_time : ProcParams :=
  { MVBS_source := "Sv", MVBS_type := "binned", MVBS_time_interval := some 30,
    MVBS_distance_interval := none, MVBS_range_interval := none,
    MVBS_ping_num := some 2, MVBS_range_bin_num := some 2 }

/-- Distance-interval configuration exercising the unimplemented branch. -/
def pc_dist : ProcParams :=
  { MVBS_source := "Sv", MVBS_type := "binned", MVBS_time_interval := none,
    MVBS_distance_interval := some 1, MVBS_range_interval := none,
    MVBS_ping_num := some 2, MVBS_range_bin_num := some 2 }

/-- Rolling-aggregation configuration exercising the unimplemented branch. -/
def pc_roll : ProcParams :=
  { MVBS_source := "Sv", MVBS_type := "rolling", MVBS_time_interval := none,
    MVBS_distance_interval := none, MVBS_range_interval := none,
    MVBS_ping_num := some 2, MVBS_range_bin_num := some 2 }

/-- C5 counterexample: with `MVBS_time_interval` set, `_get_tile_params` prints
a diagnostic and returns `None` instead of raising a typed not-supported error,
and with `MVBS_type = 'rolling'`, `get_MVBS` dies with an untyped
unbound-local crash, not a typed error. -/
theorem unimplemented_modes_no_typed_error :
    get_tile_params pc_time = .diag "Averaging by time interval is not yet implemented"
    ∧ get_MVBS_outcome pc_roll = .unboundLocalError := by
  constructor <;> rfl

/-- C5 amended: for each unimplemented aggregation mode the reference code does
not raise a typed not-supported error: each interval-based tiling option makes
`_get_tile_params` print a diagnostic and return `None` (after which the tuple
unpacking in `get_MVBS` fails with an untyped `TypeError`), and
`MVBS_type = 'rolling'` makes `get_MVBS` fail with an untyped unbound-local
crash; in no case is a partial or zero-filled result returned. -/
theorem unimplemented_modes_diag_or_crash (p : ProcParams) :
    (p.MVBS_time_interval.isSome = true →
      get_tile_params p = .diag "Averaging by time interval is not yet implemented"
        ∧ get_MVBS_outcome p ≠ .computed)
    ∧ (p.MVBS_time_interval = none → p.MVBS_ping_num.isSome = true →
        p.MVBS_distance_interval.isSome = true →
      get_tile_params p = .diag "Averaging by distance interval is not yet implemented"
        ∧ get_MVBS_outcome p ≠ .computed)
    ∧ (p.MVBS_time_interval = none → p.MVBS_ping_num.isSome = true →
        p.MVBS_distance_interval = none → p.MVBS_range_interval.isSome = true →
      get_tile_params p = .diag "Averaging by range inteval is not yet implemented"
        ∧ get_MVBS_outcome p ≠ .computed)
    ∧ (p.MVBS_type = "rolling" →
        ∀ pn rn, get_tile_params p = .ok pn rn → get_MVBS_outcome p ≠ .computed) := by
  refine ⟨fun h1 => ?_, fun h1 h2 h3 => ?_, fun h1 h2 h3 h4 => ?_, fun ht pn rn hok => ?_⟩
  · have hd : get_tile_params p = .diag "Averaging by time interval is not yet implemented" := by
      simp [get_tile_params, h1]
    refine ⟨hd, ?_⟩
    unfold get_MVBS_outcome
    rw [hd]
    by_cases hs : p.MVBS_source = "Sv" ∨ p.MVBS_source = "Sv_clean" <;> simp [hs]
  · obtain ⟨pn, hpn⟩ := Option.isSome_iff_exists.mp h2
    have hd : get_tile_params p = .diag "Averaging by distance interval is not yet implemented" := by
      simp [get_tile_params, h1, hpn, h3]
    refine ⟨hd, ?_⟩
    unfold get_MVBS_outcome
    rw [hd]
    by_cases hs : p.MVBS_source = "Sv" ∨ p.MVBS_source = "Sv_clean" <;> simp [hs]
  · obtain ⟨pn, hpn⟩ := Option.isSome_iff_exists.mp h2
    have hd : get_tile_params p = .diag "Averaging by range inteval is not yet implemented" := by
      simp [get_tile_params, h1, hpn, h3, h4]
    refine ⟨hd, ?_⟩
    unfold get_MVBS_outcome
    rw [hd]
    by_cases hs : p.MVBS_source = "Sv" ∨ p.MVBS_source = "Sv_clean" <;> simp [hs]
  · unfold get_MVBS_outcome
    rw [hok, ht]
    by_cases hs : p.MVBS_source = "Sv" ∨ p.MVBS_source = "Sv_clean" <;> simp [hs]

/-- C5 witness: the amended theorem applied to the concrete distance-interval
and rolling configurations. -/
theorem unimplemented_modes_diag_or_crash_witness :
    (get_tile_params pc_dist = .diag "Averaging by distance interval is not yet implemented"
      ∧ get_MVBS_outcome pc_dist ≠ .computed)
    ∧ get_MVBS_outcome pc_roll ≠ .computed :=
  ⟨(unimplemented_modes_diag_or_crash pc_dist).2.1 rfl rfl rfl,
   (unimplemented_modes_diag_or_crash pc_roll).2.2.2 rfl 2 2 rfl⟩

/-! ## Correction-table resolver (`ProcessEK.calc_sa_correction`) -/

/-- From the source, line 187: `np.isclose(a, b)` with numpy defaults, i.e.
`|a - b| <= atol + rtol * |b|` with `rtol = 1e-5` and `atol = 1e-8`. -/
def isClose (a b : ℚ) : Bool := |a - b| ≤ 1 / 100000000 + |b| / 100000

lemma isClose_iff (a b : ℚ) :
    isClose a b = true ↔ |a - b| ≤ 1 / 100000000 + |b| / 100000 := by
  simp [isClose]

/-- Vendor metadata consumed by `calc_sa_correction` (from `ed.get_vend_from_raw()`):
per-channel `sa_correction` and `pulse_length` tables and the vendor `frequency`
coordinate; `has_sa` models whether `'sa_correction' in ds_vend`. -/
structure VendTable where
  has_sa : Bool
  sa_correction : List (List ℚ)
  pulse_length : List (List ℚ)
  frequency : List ℚ

/-- Number of pings: the common row length of the (channel, ping_time) pulse
array. -/
def npings (td : List (List ℚ)) : ℕ := (td.headD []).length

/-- Column `j` of the (channel, ping_time) pulse array: the vector of per-channel
pulse lengths at ping `j`. -/
def tdCol (td : List (List ℚ)) (j : ℕ) : List ℚ := td.map (fun r => r.getD j 0)

/-- From the source, line 183: `np.unique(ed.raw.transmit_duration_nominal, axis=1)`
returns the distinct columns. The sorting `np.unique` performs is dropped: it
only affects the element order of `uVec` in the misaligned single-channel
corner, which no claim depends on. -/
def uniqueCols (td : List (List ℚ)) : List (List ℚ) :=
  ((List.range (npings td)).map (tdCol td)).dedup

/-- The squeezed unique-pulse array of line 183 in the cases where squeezing
leaves it one-dimensional: with several channels and one unique column it is
that column (the per-channel constant pulse length); with a single channel and
several unique columns it is the channel's distinct pulse values. The
0-dimensional (one channel, one unique column) and 2-dimensional cases are
handled separately in `calc_sa_correction`. -/
def uVec (td : List (List ℚ)) : List ℚ :=
  if td.length = 1 then (uniqueCols td).map (fun cv => cv.getD 0 0)
  else (uniqueCols td).headD []

/-- From the source, line 187: the indices of the pulse-length table entries of
one channel that match the transmitted pulse length `u` within `np.isclose`
tolerance (`np.argwhere(np.isclose(u, table)).squeeze()` keeps exactly these
indices, however many there are). -/
def matchIdx (u : ℚ) (tbl : List ℚ) : List ℕ :=
  (List.range tbl.length).filter (fun i => isClose u (tbl.getD i 0))

/-- Per-channel number of tolerance matches, i.e. the shape of each entry of
`idx` at line 187 after its squeeze: `1` squeezes to a scalar, anything else
stays a (possibly empty) 1-D array. -/
def matchCounts (vend : VendTable) (td : List (List ℚ)) : List ℕ :=
  (List.range vend.pulse_length.length).map
    (fun i => (matchIdx ((uVec td).getD i 0) (vend.pulse_length.getD i [])).length)

/-- Whether every matched index selected by `ch[x]` at line 190 is within the
bounds of its channel's `sa_correction` row (the comprehension runs over
`zip(sa_correction_table, np.array(idx))`, which stops at the shorter of the
two). -/
def saIndexOk (vend : VendTable) (td : List (List ℚ)) : Bool :=
  (List.range (min vend.sa_correction.length vend.pulse_length.length)).all
    (fun i => (matchIdx ((uVec td).getD i 0) (vend.pulse_length.getD i [])).all
      (fun j => j < (vend.sa_correction.getD i []).length))

/-- The per-channel `sa_correction` scalars selected on the success path of
line 190, where every channel has exactly one tolerance match. -/
def saValues (vend : VendTable) (td : List (List ℚ)) : List ℚ :=
  (List.range (min vend.sa_correction.length vend.pulse_length.length)).map
    (fun i => (vend.sa_correction.getD i []).getD
      ((matchIdx ((uVec td).getD i 0) (vend.pulse_length.getD i [])).headD 0) 0)

/-- Outcome of `calc_sa_correction` (source lines 175-192). `raisedValueError`
covers the two deliberate raises (lines 179 and 186). `raisedIndexError` is an
accidental `IndexError`: indexing the 0-dimensional or too-short squeezed
unique-pulse array at line 187, or `ch[x]` at line 190 with a matched index
beyond the `sa_correction` row. `raisedBuildError` is an accidental untyped
error while assembling the result: `np.array(idx)` at line 190 on ragged
per-channel index lists (numpy raises there; older numpy versions fail just
after, when the object array is used as an index), or line 192's
`xr.DataArray(...).assign_coords(...)` receiving non-1-D data (all channels
matching zero or `m >= 2` entries) or data whose length differs from the
vendor frequency coordinate. `unmodelledBroadcast` marks the corner where the
squeezed array stays 2-D (a vendor table that cannot align with the raw
channels); the numpy broadcasting behavior there is not modelled further and
no claim reaches it. -/
inductive SaResult where
  | raisedValueError : String → SaResult
  | raisedIndexError : SaResult
  | raisedBuildError : SaResult
  | unmodelledBroadcast : SaResult
  | ok : List ℚ → SaResult
deriving DecidableEq

/-- Whether the outcome is one of the raised Python exceptions. -/
def SaResult.isRaised : SaResult → Bool
  | .raisedValueError _ => true
  | .raisedIndexError => true
  | .raisedBuildError => true
  | _ => false

/-- From the source, lines 175-192 (`ProcessEK.calc_sa_correction`), branch for
branch: raise if the vendor table lacks `sa_correction` (line 179); raise
`"Pulse length changes over time"` if the squeezed unique-pulse array size
(`td.length * number of unique columns`) differs from the vendor frequency
count (line 186); then, with a 0-D squeezed array (one channel, one unique
column), line 187's `unique_pulse_length[i]` raises `IndexError` for any
nonempty pulse table (an empty one reaches line 192, whose coordinate length
mismatch raises instead); with a 1-D squeezed array the comprehension raises
`IndexError` if the vendor pulse table outnumbers it, `np.array(idx)` raises on
ragged match counts, `ch[x]` raises on an out-of-bounds matched index, and
line 192 raises unless every channel matched exactly one entry and the result
length equals the vendor frequency count; only then is the matched selection
returned. -/
def calc_sa_correction (vend : VendTable) (td : List (List ℚ)) : SaResult :=
  if vend.has_sa = false then .raisedValueError "sa_correction not found in raw data"
  else if td.length * (uniqueCols td).length ≠ vend.frequency.length then
    .raisedValueError "Pulse length changes over time"
  else if 2 ≤ td.length ∧ 2 ≤ (uniqueCols td).length then .unmodelledBroadcast
  else if td.length = 1 ∧ (uniqueCols td).length = 1 then
    (if vend.pulse_length.length = 0 then .raisedBuildError else .raisedIndexError)
  else if (uVec td).length < vend.pulse_length.length then .raisedIndexError
  else if ¬ ((matchCounts vend td).all (fun m => m = (matchCounts vend td).headD 1)) then
    .raisedBuildError
  else if saIndexOk vend td = false then .raisedIndexError
  else if (matchCounts vend td).headD 1 ≠ 1 then .raisedBuildError
  else if min vend.sa_correction.length vend.pulse_length.length ≠ vend.frequency.length then
    .raisedBuildError
  else .ok (saValues vend td)

lemma getD_zero_eq_headD (l : List ℚ) : l.getD 0 0 = l.headD 0 := by
  cases l <;> rfl

lemma two_le_dedup_length {α : Type} [DecidableEq α] {l : List α} {a b : α}
    (ha : a ∈ l) (hb : b ∈ l) (hab : a ≠ b) : 2 ≤ l.dedup.length := by
  have ha' : a ∈ l.dedup := List.mem_dedup.mpr ha
  have hb' : b ∈ l.dedup := List.mem_dedup.mpr hb
  rcases hd : l.dedup with _ | ⟨x, _ | ⟨y, t⟩⟩
  · rw [hd] at ha'; simp at ha'
  · rw [hd] at ha' hb'
    simp at ha' hb'
    exact absurd (ha'.trans hb'.symm) hab
  · simp

lemma dedup_length_le_one_all_eq {α : Type} [DecidableEq α] {l : List α}
    (h : l.dedup.length ≤ 1) : ∀ x ∈ l, ∀ y ∈ l, x = y := by
  intro x hx y hy
  by_contra hne
  have := two_le_dedup_length hx hy hne
  omega

lemma exists_ne_of_two_le_dedup_length {α : Type} [DecidableEq α] {l : List α}
    (h : 2 ≤ l.dedup.length) : ∃ a ∈ l, ∃ b ∈ l, a ≠ b := by
  rcases hd : l.dedup with _ | ⟨x, _ | ⟨y, t⟩⟩
  · rw [hd] at h; simp at h
  · rw [hd] at h; simp at h
  · have hnd : l.dedup.Nodup := List.nodup_dedup l
    rw [hd] at hnd
    have hxy : x ≠ y := by
      intro he
      rw [he] at hnd
      simp at hnd
    have hx : x ∈ l := List.mem_dedup.mp (by rw [hd]; simp)
    have hy : y ∈ l := List.mem_dedup.mp (by rw [hd]; simp)
    exact ⟨x, hx, y, hy, hxy⟩

lemma dedup_length_eq_one_of_all_eq {α : Type} [DecidableEq α] {l : List α}
    (hne : l ≠ []) (h : ∀ x ∈ l, ∀ y ∈ l, x = y) : l.dedup.length = 1 := by
  have h1 : 1 ≤ l.dedup.length := by
    have hd : l.dedup ≠ [] := fun he => hne ((List.dedup_eq_nil l).mp he)
    have := List.length_pos.mpr hd
    omega
  have h2 : ¬ 2 ≤ l.dedup.length := by
    intro h2
    obtain ⟨a, ha, b, hb, hab⟩ := exists_ne_of_two_le_dedup_length h2
    exact hab (h a ha b hb)
  omega

/-- C8: with an aligned vendor table (one vendor frequency per raw channel) and a
rectangular pulse array, `calc_sa_correction` raises the pulse-length
`ValueError` as soon as some channel's transmitted pulse length is not constant
over pings, and it returns successfully only when every channel's pulse length
is constant over all pings. -/
theorem calc_sa_pulse_length_guard (vend : VendTable) (td : List (List ℚ))
    (hsa : vend.has_sa = true)
    (hfreq : vend.frequency.length = td.length)
    (hlen : ∀ r ∈ td, r.length = npings td) :
    ((∃ r ∈ td, ∃ a ∈ r, a ≠ r.headD 0) →
      calc_sa_correction vend td = .raisedValueError "Pulse length changes over time")
    ∧ (∀ out, calc_sa_correction vend td = .ok out →
        ∀ r ∈ td, ∀ a ∈ r, a = r.headD 0) := by
  constructor
  · rintro ⟨r, hr, a, ha, hne⟩
    obtain ⟨i, hi, hri⟩ := List.mem_iff_getElem.mp hr
    obtain ⟨j, hj, hrj⟩ := List.mem_iff_getElem.mp ha
    have hjn : j < npings td := by rw [← hlen r hr]; exact hj
    have h0n : 0 < npings td := Nat.lt_of_le_of_lt (Nat.zero_le j) hjn
    have hc0 : tdCol td 0 ∈ (List.range (npings td)).map (tdCol td) :=
      List.mem_map.mpr ⟨0, List.mem_range.mpr h0n, rfl⟩
    have hcj : tdCol td j ∈ (List.range (npings td)).map (tdCol td) :=
      List.mem_map.mpr ⟨j, List.mem_range.mpr hjn, rfl⟩
    have hcne : tdCol td j ≠ tdCol td 0 := by
      intro hcc
      have hgj : (tdCol td j).getD i 0 = r.getD j 0 := by
        unfold tdCol
        rw [List.getD_eq_getElem _ 0 (by simpa using hi), List.getElem_map, hri]
      have hg0 : (tdCol td 0).getD i 0 = r.getD 0 0 := by
        unfold tdCol
        rw [List.getD_eq_getElem _ 0 (by simpa using hi), List.getElem_map, hri]
      have : r.getD j 0 = r.getD 0 0 := by rw [← hgj, ← hg0, hcc]
      rw [List.getD_eq_getElem _ 0 hj, hrj, getD_zero_eq_headD] at this
      exact hne this
    have h2 : 2 ≤ (uniqueCols td).length := two_le_dedup_length hcj hc0 hcne
    have hLpos : 0 < td.length := List.length_pos.mpr (List.ne_nil_of_mem hr)
    have hne' : td.length * (uniqueCols td).length ≠ vend.frequency.length := by
      rw [hfreq]
      intro he
      have := Nat.eq_of_mul_eq_mul_left hLpos
        (by omega : td.length * (uniqueCols td).length = td.length * 1)
      omega
    unfold calc_sa_correction
    rw [hsa]
    simp [hne']
  · intro out hout r hr a ha
    unfold calc_sa_correction at hout
    rw [hsa] at hout
    simp only [Bool.true_eq_false, if_false] at hout
    split_ifs at hout with hA hB hC hC0 hD hE hF hG hH
    all_goals try simp at hout
    push_neg at hA
    have hLpos : 0 < td.length := List.length_pos.mpr (List.ne_nil_of_mem hr)
    have hk1 : (uniqueCols td).length = 1 := by
      rw [hfreq] at hA
      exact Nat.eq_of_mul_eq_mul_left hLpos
        (by omega : td.length * (uniqueCols td).length = td.length * 1)
    obtain ⟨i, hi, hri⟩ := List.mem_iff_getElem.mp hr
    obtain ⟨j, hj, hrj⟩ := List.mem_iff_getElem.mp ha
    have hjn : j < npings td := by rw [← hlen r hr]; exact hj
    have h0n : 0 < npings td := Nat.lt_of_le_of_lt (Nat.zero_le j) hjn
    have hc0 : tdCol td 0 ∈ (List.range (npings td)).map (tdCol td) :=
      List.mem_map.mpr ⟨0, List.mem_range.mpr h0n, rfl⟩
    have hcj : tdCol td j ∈ (List.range (npings td)).map (tdCol td) :=
      List.mem_map.mpr ⟨j, List.mem_range.mpr hjn, rfl⟩
    have hall := dedup_length_le_one_all_eq
      (l := (List.range (npings td)).map (tdCol td)) (by rw [show ((List.range (npings td)).map (tdCol td)).dedup = uniqueCols td from rfl, hk1])
    have hcc : tdCol td j = tdCol td 0 := hall _ hcj _ hc0
    have hgj : (tdCol td j).getD i 0 = r.getD j 0 := by
      unfold tdCol
      rw [List.getD_eq_getElem _ 0 (by simpa using hi), List.getElem_map, hri]
    have hg0 : (tdCol td 0).getD i 0 = r.getD 0 0 := by
      unfold tdCol
      rw [List.getD_eq_getElem _ 0 (by simpa using hi), List.getElem_map, hri]
    have heq : r.getD j 0 = r.getD 0 0 := by rw [← hgj, ← hg0, hcc]
    rw [List.getD_eq_getElem _ 0 hj, hrj, getD_zero_eq_headD] at heq
    exact heq

/-- Vendor table and pulse array with one channel whose pulse length changes
between the two pings. -/
def vd8 : VendTable :=
  { has_sa := true, sa_correction := [[5]], pulse_length := [[1]], frequency := [38000] }

/-- Pulse array of one channel and two pings with differing pulse lengths. -/
def td8 : List (List ℚ) := [[1, 2]]

/-- C8 witness: the guard theorem applied to a concrete one-channel dataset whose
pulse length changes over time. -/
theorem calc_sa_pulse_length_guard_witness :
    calc_sa_correction vd8 td8 = .raisedValueError "Pulse length changes over time" :=
  (calc_sa_pulse_length_guard vd8 td8 rfl rfl (by decide)).1
    ⟨[1, 2], by decide, 2, by decide, by decide⟩

/-- Vendor table with one channel whose pulse-length table holds two entries that
both lie within `np.isclose` tolerance of the transmitted pulse length `1`
(the second entry differs from it by only `1e-9`). -/
def vd6 : VendTable :=
  { has_sa := true, sa_correction := [[5, 7]],
    pulse_length := [[1, 1000000001 / 1000000000]], frequency := [1] }

/-- Vendor table with one channel whose single pulse-length table entry equals
the transmitted pulse length exactly: the unambiguous single-match case. -/
def vd6u : VendTable :=
  { has_sa := true, sa_correction := [[5]], pulse_length := [[1]], frequency := [1] }

/-- Two-channel vendor table in which both channels have two pulse-length
entries within tolerance of the transmitted pulse length. -/
def vd62 : VendTable :=
  { has_sa := true, sa_correction := [[5, 7], [5, 7]],
    pulse_length := [[1, 1000000001 / 1000000000], [1, 1000000001 / 1000000000]],
    frequency := [1, 2] }

/-- Two-channel vendor table in which no pulse-length entry of either channel
is within tolerance of the transmitted pulse length. -/
def vd62z : VendTable :=
  { has_sa := true, sa_correction := [[5], [5]], pulse_length := [[2], [2]],
    frequency := [1, 2] }

/-- Constant-pulse array of one channel and one ping, transmitted pulse length 1. -/
def td6 : List (List ℚ) := [[1]]

/-- Constant-pulse array of two channels and one ping, transmitted pulse length 1. -/
def td62 : List (List ℚ) := [[1], [1]]

/-- C6 counterexample: no dedicated ambiguity error exists. A single-channel
dataset crashes with the 0-d-squeeze `IndexError` of line 187 whether two
entries match within tolerance (`vd6`) or exactly one matches unambiguously
(`vd6u`) — the failure precedes any matching; and a two-channel dataset in
which both channels match two entries (`vd62`), or no entry at all (`vd62z`),
crashes with the untyped array-assembly error of lines 190-192, not with an
`AmbiguousCorrectionMatchError`. -/
theorem ambiguous_match_crashes_untyped :
    calc_sa_correction vd6 td6 = .raisedIndexError
    ∧ calc_sa_correction vd6u td6 = .raisedIndexError
    ∧ calc_sa_correction vd62 td62 = .raisedBuildError
    ∧ calc_sa_correction vd62z td62 = .raisedBuildError := by
  have h1 : isClose 1 1 = true := by
    rw [isClose_iff, show (1:ℚ) - 1 = 0 by ring, abs_zero, abs_of_nonneg (by norm_num)]
    norm_num
  have h2 : isClose 1 (1000000001 / 1000000000) = true := by
    rw [isClose_iff, show (1:ℚ) - 1000000001 / 1000000000 = -(1 / 1000000000) by ring,
      abs_neg, abs_of_nonneg (by norm_num), abs_of_nonneg (by norm_num)]
    norm_num
  have h3 : isClose 1 2 = false := by
    have hn : ¬ (isClose 1 2 = true) := by
      rw [isClose_iff, show (1:ℚ) - 2 = -1 by ring, abs_neg,
        abs_of_nonneg (by norm_num), abs_of_nonneg (by norm_num)]
      norm_num
    simpa using hn
  refine ⟨by decide, by decide, ?_, ?_⟩
  · norm_num [calc_sa_correction, matchCounts, saIndexOk, uVec, uniqueCols, npings,
      tdCol, matchIdx, vd62, td62, List.range_succ, h1, h2]
  · norm_num [calc_sa_correction, matchCounts, saIndexOk, uVec, uniqueCols, npings,
      tdCol, matchIdx, vd62z, td62, List.range_succ, h3]

lemma calc_sa_not_unmodelled (vend : VendTable) (td : List (List ℚ))
    (hfreq : vend.frequency.length = td.length) :
    calc_sa_correction vend td ≠ .unmodelledBroadcast := by
  unfold calc_sa_correction
  split_ifs with h0 hA hB hC hC0 hD hE hF hG hH
  all_goals intro hcon
  all_goals try exact SaResult.noConfusion hcon
  rw [hfreq] at hA
  have hA2 : td.length * (uniqueCols td).length = td.length := not_ne_iff.mp hA
  have hpos : 0 < td.length := by omega
  have hone := Nat.eq_of_mul_eq_mul_left hpos
    (by omega : td.length * (uniqueCols td).length = td.length * 1)
  omega

/-- C6 amended: the resolver matches the transmitted pulse length against table
entries with `np.isclose` floating-point tolerance (not exact equality), and it
can only return successfully when every channel has exactly one
tolerance-matched entry; but when zero entries or several entries match for
some channel the failure is not a dedicated `AmbiguousCorrectionMatchError`:
the code crashes with accidental untyped errors from the array plumbing, and a
single-channel dataset crashes with an `IndexError` from the 0-dimensional
squeeze even when exactly one entry matches unambiguously. -/
theorem sa_match_multiplicity_errors (vend : VendTable) (td : List (List ℚ))
    (hsa : vend.has_sa = true)
    (hfreq : vend.frequency.length = td.length)
    (hp : vend.pulse_length.length = td.length)
    (hlen : ∀ r ∈ td, r.length = npings td) :
    (∀ out, calc_sa_correction vend td = .ok out →
      ∀ i, i < td.length →
        (matchIdx ((uVec td).getD i 0) (vend.pulse_length.getD i [])).length = 1)
    ∧ ((∃ i, i < td.length ∧
          (matchIdx ((uVec td).getD i 0) (vend.pulse_length.getD i [])).length ≠ 1) →
        (calc_sa_correction vend td).isRaised = true)
    ∧ (td.length = 1 → 0 < npings td → (∀ r ∈ td, ∀ a ∈ r, a = r.headD 0) →
        calc_sa_correction vend td = .raisedIndexError) := by
  have hmain : ∀ out, calc_sa_correction vend td = .ok out →
      ∀ i, i < td.length →
        (matchIdx ((uVec td).getD i 0) (vend.pulse_length.getD i [])).length = 1 := by
    intro out hout i hi
    unfold calc_sa_correction at hout
    rw [hsa] at hout
    simp only [Bool.true_eq_false, if_false] at hout
    split_ifs at hout with hA hB hC hC0 hD hE hF hG hH
    have hallm : ∀ m ∈ matchCounts vend td, m = (matchCounts vend td).headD 1 := by
      have hall := List.all_eq_true.mp hE
      intro m hm
      simpa using hall m hm
    have hmem : (matchIdx ((uVec td).getD i 0) (vend.pulse_length.getD i [])).length
        ∈ matchCounts vend td := by
      unfold matchCounts
      exact List.mem_map.mpr ⟨i, List.mem_range.mpr (by omega), rfl⟩
    rw [hallm _ hmem]
    exact not_ne_iff.mp hG
  refine ⟨hmain, ?_, ?_⟩
  · rintro ⟨i, hi, hne⟩
    rcases hres : calc_sa_correction vend td with m | _ | _ | _ | out
    · rfl
    · rfl
    · rfl
    · exact absurd hres (calc_sa_not_unmodelled vend td hfreq)
    · exact absurd (hmain out hres i hi) hne
  · intro h1 hnp hconst
    obtain ⟨r, hr⟩ := List.length_eq_one.mp h1
    have hcols : ∀ j, j < npings td → tdCol td j = tdCol td 0 := by
      intro j hj
      subst hr
      unfold tdCol
      simp only [List.map]
      have hjr : j < r.length := by simpa [npings] using hj
      have h0r : 0 < r.length := Nat.lt_of_le_of_lt (Nat.zero_le j) hjr
      have hc := hconst r (by simp)
      have hja := hc (r.get ⟨j, hjr⟩) (List.get_mem r j hjr)
      have h0a := hc (r.get ⟨0, h0r⟩) (List.get_mem r 0 h0r)
      rw [List.getD_eq_getElem _ 0 hjr, List.getD_eq_getElem _ 0 h0r]
      rw [show r[j] = r.get ⟨j, hjr⟩ from rfl, show r[0] = r.get ⟨0, h0r⟩ from rfl, hja, h0a]
    have hk : (uniqueCols td).length = 1 := by
      unfold uniqueCols
      apply dedup_length_eq_one_of_all_eq
      · simp only [ne_eq, List.map_eq_nil_iff, List.range_eq_nil]
        omega
      · intro x hx y hy
        obtain ⟨jx, hjx, hxe⟩ := List.mem_map.mp hx
        obtain ⟨jy, hjy, hye⟩ := List.mem_map.mp hy
        rw [← hxe, ← hye, hcols jx (List.mem_range.mp hjx), hcols jy (List.mem_range.mp hjy)]
    have hfe : vend.frequency.length = 1 := by rw [hfreq, h1]
    simp [calc_sa_correction, hsa, h1, hk, hp, hfe]

/-- C6 witness: the amended theorem applied to the two-channel double-match
table (ambiguity crashes untyped) and to the single-channel unambiguous table
(crashes before matching). -/
theorem sa_match_multiplicity_errors_witness :
    (calc_sa_correction vd62 td62).isRaised = true
    ∧ calc_sa_correction vd6u td6 = .raisedIndexError :=
  ⟨(sa_match_multiplicity_errors vd62 td62 rfl rfl rfl (by decide)).2.1
    ⟨0, by decide, by
      have h1 : isClose 1 1 = true := by
        rw [isClose_iff, show (1:ℚ) - 1 = 0 by ring, abs_zero,
          abs_of_nonneg (by norm_num)]
        norm_num
      have h2 : isClose 1 (1000000001 / 1000000000) = true := by
        rw [isClose_iff, show (1:ℚ) - 1000000001 / 1000000000 = -(1 / 1000000000) by ring,
          abs_neg, abs_of_nonneg (by norm_num), abs_of_nonneg (by norm_num)]
        norm_num
      have hu : (uVec td62).getD 0 0 = 1 := by decide
      rw [hu]
      norm_num [matchIdx, vd62, List.range_succ, h1, h2]⟩,
   (sa_match_multiplicity_errors vd6u td6 rfl rfl rfl (by decide)).2.2 rfl
     (by decide) (by decide)⟩

/-! ## Environment-parameter operations (`calc_sound_speed`, `calc_seawater_absorption`) -/

/-- From the source, lines 14-32 (`ProcessBase.calc_sound_speed`).
`fileVal` models the optional `sound_speed_indicative` variable of the file's
Environment group; `uwaSS` models the external `uwa.calc_sound_speed` kernel on
(salinity, temperature, pressure). An `.ok none` value records that the method
fell through and returned `None`: both the missing-variable branch (line 22) and
the unrecognized-source branch (line 32) build a `ValueError(...)` expression
without `raise`, so no exception is thrown. -/
def calc_sound_speed (fileVal : Option ℚ) (env_params : Option (ℚ × ℚ × ℚ))
    (uwaSS : ℚ × ℚ × ℚ → ℚ) (src : String) : Except String (Option ℚ) :=
  if src = "file" then
    match fileVal with
    | some v => .ok (some v)
    | none => .ok none
  else if src = "user" then
    match env_params with
    | none => .error "env_params required for calculating sound speed"
    | some e => .ok (some (uwaSS e))
  else .ok none

/-- From the source, lines 34-44 (`ProcessBase.calc_seawater_absorption`): any
source other than `'user'` raises `ValueError`; `uwaAbs` models the external
`uwa.calc_seawater_absorption` kernel. -/
def calc_seawater_absorption (env_params : ℚ × ℚ × ℚ)
    (uwaAbs : ℚ × ℚ × ℚ → ℚ) (src : String) : Except String ℚ :=
  if src ≠ "user" then .error "src can only be user"
  else .ok (uwaAbs env_params)

/-- C9: evaluation at the failing input. With an unrecognized calibration source
`calc_sound_speed` silently returns `None` instead of raising (the code builds
`ValueError("Not sure how to update sound speed!")` but never raises it), and the
`'file'` source likewise returns data or `None` without ever raising; only
`calc_seawater_absorption` actually raises for a non-user source as the spec
requires of both. -/
theorem calc_sound_speed_unknown_src_returns_none :
    calc_sound_speed none none (fun _ => 0) "auto" = .ok none
    ∧ calc_sound_speed none none (fun _ => 0) "file" = .ok none
    ∧ calc_seawater_absorption (0, 0, 0) (fun _ => 0) "auto"
        = .error "src can only be user" := by
  refine ⟨rfl, rfl, rfl⟩

/-! ## Noise estimation/removal engine (`ProcessBase.remove_noise`) -/

/-- Modelled from the spec: the body of `ProcessBase.remove_noise` (source lines
142-148) contains only a docstring, so the algorithm is taken from spec section
4.5: per sample, the noise floor is referenced back to the sample's range by
adding the transmission-loss terms, the noise estimate is subtracted from the
calibrated power in the linear domain (samples at or below the referenced noise
level are set to that level), and the result is clipped so that corrected power
never exceeds the original calibrated value. -/
noncomputable def remove_noise (Sv noise_floor sp ab : ℝ) : ℝ :=
  min (if noise_floor + sp + ab < Sv then
        10 * Real.logb 10 ((10:ℝ) ^ (Sv / 10) - (10:ℝ) ^ ((noise_floor + sp + ab) / 10))
      else noise_floor + sp + ab)
    Sv

/-- C10: for every calibrated dataset, noise floor and range array the
noise-corrected value never exceeds the original calibrated value at any
(channel, ping_time, range_bin) sample: `Sv_clean <= Sv` everywhere, because the
correction is clipped against the original value as its final step. -/
theorem remove_noise_bounded (SvA noiseA spA abA : Idx → ℝ) (i : Idx) :
    remove_noise (SvA i) (noiseA i) (spA i) (abA i) ≤ SvA i :=
  min_le_right _ _

/-! ## Calibration call and session state (`ProcessEK._cal_narrowband`) -/

/-- Environment parameters used by `_cal_narrowband`. -/
structure EnvParams where
  speed_of_sound_in_water : ℝ
  seawater_absorption : ℝ

/-- Calibration parameters used by `_cal_narrowband`, per channel. -/
structure CalParams where
  transmit_power : ℕ → ℝ
  gain_correction : ℕ → ℝ
  equivalent_beam_angle : ℕ → ℝ
  transmit_duration_nominal : ℕ → ℝ
  sa_correction : ℕ → ℝ
  sample_interval : ℕ → ℝ

/-- A calibrated output dataset: the named `Sv`/`Sp` variable together with the
attached `range` field (source lines 231-232 and 257-258 attach
`ed.range` into the dataset under the key `'range'`). -/
structure Dataset where
  name : String
  data : Idx → ℝ
  range : Idx → ℝ

/-- The mutable session object `ed` as `_cal_narrowband` sees it: raw
backscatter and frequency are read, while `range`, `Sv`, `Sp` and the save
paths are written onto it by the call. -/
structure EdState where
  backscatter_r : Idx → ℝ
  frequency : ℕ → ℝ
  range : Option (Idx → ℝ)
  Sv : Option Dataset
  Sp : Option Dataset
  Sv_path : Option String
  Sp_path : Option String

/-- Modelled from the spec: `ProcessEK.calc_range` is only declared, not
implemented, under `src/` (the EK60/EK80 subclasses that implement it are out of
scope), so the range derivation follows spec section 4.2:
`sample_thickness = speed_of_sound * sample_interval / 2` per channel, times the
range-bin index, giving a non-negative grid increasing along `range_bin`. -/
noncomputable def calc_range (env : EnvParams) (cal : CalParams) : Idx → ℝ :=
  fun i => env.speed_of_sound_in_water * cal.sample_interval i.1 / 2 * (i.2.2 : ℝ)

/-- From the source, lines 200-267 (`ProcessEK._cal_narrowband`): caches the
range on `ed` if absent (lines 206-208), builds the calibrated dataset with the
range attached (lines 226-232 / 252-258), and either records the save path on
`ed` (save branch; persistence itself is the external collaborator) or stores
the dataset on `ed` (lines 236-243 / 260-267). Returns the updated session and
the dataset it produced; an unrecognized `cal_type` matches no branch and
produces nothing. -/
noncomputable def cal_narrowband (ed : EdState) (env : EnvParams) (cal : CalParams)
    (cal_type : String) (save : Bool) (save_path : String) : EdState × Option Dataset :=
  let rng := ed.range.getD (calc_range env cal)
  let ed1 : EdState := { ed with range := some rng }
  if cal_type = "Sv" then
    let ds : Dataset :=
      { name := "Sv",
        data := Sv_da ed.backscatter_r rng env.speed_of_sound_in_water
          env.seawater_absorption cal.transmit_power cal.gain_correction
          cal.equivalent_beam_angle cal.transmit_duration_nominal
          cal.sa_correction ed.frequency,
        range := rng }
    if save then ({ ed1 with Sv_path := some (save_path ++ "_Sv") }, some ds)
    else ({ ed1 with Sv := some ds }, some ds)
  else if cal_type = "Sp" then
    let ds : Dataset :=
      { name := "Sp",
        data := Sp_da ed.backscatter_r rng env.speed_of_sound_in_water
          env.seawater_absorption cal.transmit_power cal.gain_correction
          ed.frequency,
        range := rng }
    if save then ({ ed1 with Sp_path := some (save_path ++ "_Sp") }, some ds)
    else ({ ed1 with Sp := some ds }, some ds)
  else (ed1, none)

/-- A concrete session whose range has not been computed yet. -/
noncomputable def ed0 : EdState :=
  { backscatter_r := fun _ => -60, frequency := fun _ => 38000,
    range := none, Sv := none, Sp := none, Sv_path := none, Sp_path := none }

/-- Concrete environment parameters for the counterexample session. -/
noncomputable def env0 : EnvParams :=
  { speed_of_sound_in_water := 1500, seawater_absorption := 1 / 100 }

/-- Concrete calibration parameters for the counterexample session. -/
noncomputable def cal0 : CalParams :=
  { transmit_power := fun _ => 1000, gain_correction := fun _ => 20,
    equivalent_beam_angle := fun _ => -20, transmit_duration_nominal := fun _ => 1 / 1000,
    sa_correction := fun _ => 0, sample_interval := fun _ => 1 / 1000 }

/-- C7 counterexample: an Sv calibration call does not leave the caller's input
unchanged: the session object passed in acquires a cached `range` (and, with
`save=False`, the `Sv` dataset), so the state after the call differs from the
state before it. -/
theorem cal_narrowband_mutates_caller :
    (cal_narrowband ed0 env0 cal0 "Sv" false "path").1 ≠ ed0 := by
  intro h
  have hr := congrArg EdState.range h
  simp [cal_narrowband, ed0] at hr

/-- C7 amended: each Sv calibration call builds a fresh dataset in which the
range array is attached as a field alongside the Sv variable (so consumers need
not recompute it), but it does not leave the caller's input unchanged: the
session object acquires the cached range, and with `save=False` the produced
dataset itself is stored on the session. -/
theorem cal_narrowband_attaches_range (ed : EdState) (env : EnvParams)
    (cal : CalParams) (path : String) :
    ((cal_narrowband ed env cal "Sv" false path).2
        = some (⟨"Sv",
            Sv_da ed.backscatter_r (ed.range.getD (calc_range env cal))
              env.speed_of_sound_in_water env.seawater_absorption
              cal.transmit_power cal.gain_correction cal.equivalent_beam_angle
              cal.transmit_duration_nominal cal.sa_correction ed.frequency,
            ed.range.getD (calc_range env cal)⟩ : Dataset))
    ∧ ((cal_narrowband ed env cal "Sv" false path).1.range
        = some (ed.range.getD (calc_range env cal)))
    ∧ ((cal_narrowband ed env cal "Sv" false path).1.Sv
        = (cal_narrowband ed env cal "Sv" false path).2) := by
  refine ⟨?_, ?_, ?_⟩ <;> simp [cal_narrowband]
